import Mathlib

/-!
Verification of the harvest-and-dispatch pipeline of a GitHub e-mail
collection backend.  The JavaScript sources are shallowly embedded:
strings are `List Char`, epoch times in milliseconds are `Int`, JavaScript
objects become structures, and the network is abstracted as explicit
traces of responses.  Every definition mirrors the control flow of the
corresponding JavaScript function; divergences of the specification from
the code are exhibited by concrete counterexamples.
-/

set_option maxRecDepth 4000

/-! ## JavaScript string primitives -/

/-- Models `String.prototype.includes('/')` for a single-character needle:
membership of the character in the string. -/
def jsIncludesChar (s : List Char) (c : Char) : Bool :=
  s.contains c

/-- Models `String.prototype.startsWith(p)`. -/
def jsStartsWith (p s : List Char) : Bool :=
  p.isPrefixOf s

/-- Models `String.prototype.split('/')` for a single-character separator:
the list of maximal separator-free segments, with empty segments kept
exactly as JavaScript does. -/
def jsSplitChar (sep : Char) : List Char → List (List Char)
  | [] => [[]]
  | c :: rest =>
    if c = sep then [] :: jsSplitChar sep rest
    else
      match jsSplitChar sep rest with
      | [] => [[c]]
      | seg :: segs => (c :: seg) :: segs

/-- Models `String.prototype.endsWith(p)`. -/
def jsEndsWith (p s : List Char) : Bool :=
  p.isSuffixOf s

/-- Models `s.replace(/\.git$/, '')`: drop a trailing `.git` if present. -/
def stripGitSuffix (s : List Char) : List Char :=
  if jsEndsWith (String.toList ".git") s then s.take (s.length - 4) else s

/-- Models `s.replace(/\/$/, '')`: drop a single trailing slash if present. -/
def stripTrailingSlash (s : List Char) : List Char :=
  if jsEndsWith (String.toList "/") s then s.take (s.length - 1) else s

/-! ## `EmailCollector.parseRepository` (src/utils/emailCollector.js lines 27-49) -/

/-- Attempt to match the regular expression
`github\.com\/([^\/]+)\/([^\/]+)` at the very start of `s`: the literal
`github.com/`, a nonempty run of non-slash characters (group 1), a slash,
and a nonempty run of non-slash characters (group 2).  The greedy `[^\/]+`
with its backtracking is equivalent to taking the maximal slash-free run. -/
def matchGithubHere (s : List Char) : Option (List Char × List Char) :=
  let lit := String.toList "github.com/"
  if lit.isPrefixOf s then
    let t := s.drop lit.length
    let g1 := t.takeWhile (fun c => c ≠ '/')
    let t2 := t.dropWhile (fun c => c ≠ '/')
    match g1, t2 with
    | [], _ => none
    | _ :: _, _ :: t3 =>
      let g2 := t3.takeWhile (fun c => c ≠ '/')
      match g2 with
      | [] => none
      | _ :: _ => some (g1, g2)
    | _ :: _, [] => none
  else none

/-- Leftmost match of `github\.com\/([^\/]+)\/([^\/]+)` anywhere in `s`,
returning the two capture groups (models `repoInput.match(...)`). -/
def matchGithub : List Char → Option (List Char × List Char)
  | [] => none
  | c :: rest =>
    match matchGithubHere (c :: rest) with
    | some g => some g
    | none => matchGithub rest

/-- `EmailCollector.parseRepository`.  `Except.error` models the thrown
invalid-format error; the `Option` fields model JavaScript variables that
may remain `undefined` (the URL branch assigns them only when the regex
matches). -/
def parseRepository (repoInput : List Char) :
    Except (List Char) (Option (List Char) × Option (List Char)) :=
  if jsIncludesChar repoInput '/' then
    if jsStartsWith (String.toList "http") repoInput then
      match matchGithub repoInput with
      | some (o, r) => .ok (some o, some (stripTrailingSlash (stripGitSuffix r)))
      | none => .ok (none, none)
    else
      let parts := jsSplitChar '/' repoInput
      .ok (parts.get? 0, parts.get? 1)
  else
    .error (String.toList "Invalid repository format. Use owner/repo or full GitHub URL")

/-- `parseRepository` throws exactly on inputs with no slash. -/
theorem parseRepository_error_iff (repoInput : List Char) :
    (∃ m, parseRepository repoInput = .error m) ↔ jsIncludesChar repoInput '/' = false := by
  unfold parseRepository
  cases hv : jsIncludesChar repoInput '/' with
  | false => simp [hv]
  | true =>
    simp only [hv, if_true, Bool.true_eq_false, iff_false, not_exists]
    intro m hm
    split at hm
    · split at hm <;> simp_all
    · simp_all

/-- C10: `parseRepository` throws an invalid-format error only for inputs
containing no `/` character; for an input that starts with `http` and
contains a `/` but does not match the `github.com/owner/repo` pattern it
does not throw, returning a record whose owner and repo fields are both
undefined. -/
theorem c10_parseRepository_error_handling :
    (∀ repoInput : List Char,
      (∃ m, parseRepository repoInput = .error m) →
      jsIncludesChar repoInput '/' = false) ∧
    (∀ repoInput : List Char,
      jsStartsWith (String.toList "http") repoInput = true →
      jsIncludesChar repoInput '/' = true →
      matchGithub repoInput = none →
      parseRepository repoInput = .ok (none, none)) := by
  constructor
  · intro repoInput h
    exact (parseRepository_error_iff repoInput).mp h
  · intro repoInput hhttp hslash hmatch
    unfold parseRepository
    rw [hslash, hhttp, hmatch]
    simp

/-- Witness for C10 at concrete inputs: `ownerrepo` (no slash) throws, and
`http://gitlab.com/a/b` yields undefined owner and repo. -/
theorem c10_parseRepository_error_handling_witness :
    jsIncludesChar (String.toList "ownerrepo") '/' = false ∧
    parseRepository (String.toList "http://gitlab.com/a/b") = .ok (none, none) :=
  ⟨c10_parseRepository_error_handling.1 (String.toList "ownerrepo")
     ⟨String.toList "Invalid repository format. Use owner/repo or full GitHub URL", rfl⟩,
   c10_parseRepository_error_handling.2 (String.toList "http://gitlab.com/a/b")
     (by decide) (by decide) (by decide)⟩

/-! ## `EmailSender.renderTemplate` (src/utils/emailSender.js lines 118-128)

The renderer iterates over the keys of the variables object in insertion
order and performs `rendered = rendered.replace(new RegExp(..., 'g'),
variables[key] || '')` for each.  We model JavaScript global string
replacement faithfully, including the `$`-escape sequences of a string
replacement argument (`$$`, `$&`, dollar-backquote, dollar-apostrophe);
the placeholder patterns contain no capture groups, so `$n` is literal. -/

/-- Left curly brace (written via its code point). -/
def braceL : Char := Char.ofNat 123

/-- Right curly brace (written via its code point). -/
def braceR : Char := Char.ofNat 125

/-- Backquote character. -/
def backquoteChar : Char := Char.ofNat 96

/-- Apostrophe character. -/
def apostropheChar : Char := Char.ofNat 39

/-- The double-brace placeholder for a variable key, as built by
`new RegExp('\x7b\x7b' + key + '\x7d\x7d', 'g')` (braces are literal in the
pattern since they form no valid quantifier). -/
def placeholderFor (key : List Char) : List Char :=
  braceL :: braceL :: key ++ [braceR, braceR]

/-- Expansion of a string replacement argument of `String.prototype.replace`
for one match: `matched` is the matched text, `pre` the part of the subject
before the match and `post` the part after it. -/
def expandRepl (matched pre post : List Char) : List Char → List Char
  | [] => []
  | '$' :: c :: t =>
    if c = '$' then '$' :: expandRepl matched pre post t
    else if c = '&' then matched ++ expandRepl matched pre post t
    else if c = backquoteChar then pre ++ expandRepl matched pre post t
    else if c = apostropheChar then post ++ expandRepl matched pre post t
    else '$' :: expandRepl matched pre post (c :: t)
  | c :: t => c :: expandRepl matched pre post t

/-- First occurrence of the literal pattern `pat` in `s`: returns the part
before the match and the part after it.  For the empty pattern (never used
by the renderer) no match is reported. -/
def firstMatch (pat : List Char) : List Char → Option (List Char × List Char)
  | [] => none
  | c :: rest =>
    if pat ≠ [] ∧ pat.isPrefixOf (c :: rest) = true then
      some ([], (c :: rest).drop pat.length)
    else
      match firstMatch pat rest with
      | some (pre, post) => some (c :: pre, post)
      | none => none

/-- Global replacement loop.  `acc` is the already-scanned prefix of the
original subject (needed by the dollar-backquote escape).  The fuel is a
structural-recursion bound: every step strictly shortens the remaining
subject when `pat` is nonempty, so `s.length + 1` units never run out. -/
def jsReplaceGo (pat rep : List Char) : Nat → List Char → List Char → List Char
  | 0, _, s => s
  | fuel + 1, acc, s =>
    match firstMatch pat s with
    | none => s
    | some (pre, post) =>
      pre ++ expandRepl pat (acc ++ pre) post rep ++
        jsReplaceGo pat rep fuel (acc ++ pre ++ pat) post

/-- Models `s.replace(new RegExp(escape(pat), 'g'), rep)` for a literal
pattern `pat` and a string replacement `rep`. -/
def jsReplaceAll (s pat rep : List Char) : List Char :=
  jsReplaceGo pat rep (s.length + 1) [] s

/-- `EmailSender.renderTemplate`: fold the replacements over the variable
entries in object-key order; `kv.2.getD []` models `variables[key] || ''`
(an `undefined` or `null` value is replaced by the empty string). -/
def renderTemplate (template : List Char)
    (vars : List (List Char × Option (List Char))) : List Char :=
  vars.foldl
    (fun rendered kv => jsReplaceAll rendered (placeholderFor kv.1) (kv.2.getD []))
    template

/-- Models the JavaScript `a || b` idiom on strings: an absent
(`undefined`/`null`) or empty (falsy) string falls through to the default. -/
def jsOrString (v : Option (List Char)) (d : List Char) : List Char :=
  match v with
  | some (c :: s) => c :: s
  | some [] => d
  | none => d

/-- The variables object built in `EmailSender.sendBulkEmails` (lines
265-270): the recognized keys in insertion order with their fallbacks. -/
def variablesFor (emailAddress : List Char)
    (name username repository : Option (List Char)) :
    List (List Char × Option (List Char)) :=
  [(String.toList "email", some emailAddress),
   (String.toList "name",
     some (jsOrString name (jsOrString username (String.toList "Contributor")))),
   (String.toList "username", some (jsOrString username [])),
   (String.toList "repository", some (jsOrString repository []))]

/-- `l.isPrefixOf l` always holds. -/
theorem isPrefixOf_self (l : List Char) : l.isPrefixOf l = true := by
  induction l with
  | nil => rfl
  | cons c t ih => simp [List.isPrefixOf, ih]

/-- A pattern that is not an infix of the subject has no first match. -/
theorem firstMatch_eq_none_of_no_occurrence (pat : List Char) :
    ∀ s : List Char, ¬ pat <:+: s → firstMatch pat s = none := by
  intro s
  induction s with
  | nil => intro _; rfl
  | cons c rest ih =>
    intro h
    unfold firstMatch
    have hnp : ¬ (pat ≠ [] ∧ pat.isPrefixOf (c :: rest) = true) := by
      rintro ⟨-, hpre⟩
      exact h (List.IsPrefix.isInfix (List.isPrefixOf_iff_prefix.mp hpre))
    rw [if_neg hnp]
    have : firstMatch pat rest = none := by
      refine ih ?_
      intro hinf
      exact h (hinf.trans (List.suffix_cons c rest).isInfix)
    rw [this]

/-- Replacement is the identity when the pattern does not occur. -/
theorem jsReplaceAll_no_match (s pat rep : List Char)
    (h : firstMatch pat s = none) : jsReplaceAll s pat rep = s := by
  unfold jsReplaceAll jsReplaceGo
  rw [h]

/-- Rendering leaves a template unchanged when no variable's placeholder
occurs in it, no matter what the variable values are. -/
theorem renderTemplate_no_placeholder
    (vars : List (List Char × Option (List Char))) :
    ∀ template : List Char,
    (∀ kv ∈ vars, ¬ placeholderFor kv.1 <:+: template) →
    renderTemplate template vars = template := by
  induction vars with
  | nil => intro template _; rfl
  | cons kv rest ih =>
    intro template h
    unfold renderTemplate
    simp only [List.foldl_cons]
    rw [jsReplaceAll_no_match _ _ _
      (firstMatch_eq_none_of_no_occurrence _ _ (h kv (by simp)))]
    exact ih template (fun kv2 hm => h kv2 (by simp [hm]))

/-- Replacing a nonempty pattern by the empty string inside the pattern
itself yields the empty string. -/
theorem jsReplaceAll_self_nil (c : Char) (rest : List Char) :
    jsReplaceAll (c :: rest) (c :: rest) [] = [] := by
  unfold jsReplaceAll jsReplaceGo
  unfold firstMatch
  rw [if_pos ⟨by simp, isPrefixOf_self (c :: rest)⟩]
  simp [List.drop_length, expandRepl, jsReplaceGo, firstMatch]

/-- A recognized variable whose value is missing (undefined or null)
renders as the empty string: the placeholder disappears entirely. -/
theorem renderTemplate_missing_value (k : List Char) :
    renderTemplate (placeholderFor k) [(k, none)] = [] := by
  unfold renderTemplate
  simp only [List.foldl_cons, List.foldl_nil, Option.getD]
  exact jsReplaceAll_self_nil _ _


/-- Counterexample to C7 as stated: with template `{{email}}` and the
variable assignment email := `{{name}}`, name := `Bob`, the renderer does
not substitute the placeholder with the literal value of `email` (which
would give the text `{{name}}`): the sequential passes substitute again,
producing `Bob`. -/
theorem c7_literal_substitution_counterexample :
    renderTemplate (placeholderFor (String.toList "email"))
      [(String.toList "email", some (placeholderFor (String.toList "name"))),
       (String.toList "name", some (String.toList "Bob")),
       (String.toList "username", some []),
       (String.toList "repository", some [])]
      = String.toList "Bob" ∧
    String.toList "Bob" ≠ placeholderFor (String.toList "name") := by
  constructor
  · decide
  · decide

/-- C7 (amended): rendering substitutes the recognized placeholders
sequentially in the order email, name, username, repository, so a value
containing a later variable's placeholder is substituted again; a template
in which no variable's placeholder occurs is left unchanged whatever the
values are (in particular unrecognized placeholders survive); a recognized
variable with a missing (undefined or null) value renders as the empty
string, never as the text `undefined` or `null`; and values free of
placeholders and dollar escape sequences are substituted literally. -/
theorem c7_renderTemplate_substitution :
    (∀ (template : List Char) (vars : List (List Char × Option (List Char))),
      (∀ kv ∈ vars, ¬ placeholderFor kv.1 <:+: template) →
      renderTemplate template vars = template) ∧
    (∀ k : List Char, renderTemplate (placeholderFor k) [(k, none)] = []) ∧
    (renderTemplate
        (String.toList "Hi " ++ placeholderFor (String.toList "name") ++
          String.toList " of " ++ placeholderFor (String.toList "repository") ++
          String.toList ", " ++ placeholderFor (String.toList "unknown"))
        (variablesFor (String.toList "ada@lovelace.dev")
          (some (String.toList "Ada")) (some (String.toList "ada"))
          (some (String.toList "o/r")))
      = String.toList "Hi Ada of o/r, " ++ placeholderFor (String.toList "unknown")) ∧
    (renderTemplate (placeholderFor (String.toList "email"))
        [(String.toList "email", some (placeholderFor (String.toList "name"))),
         (String.toList "name", some (String.toList "Bob")),
         (String.toList "username", some []),
         (String.toList "repository", some [])]
      = String.toList "Bob") := by
  refine ⟨?_, ?_, by decide, by decide⟩
  · intro template vars h
    exact renderTemplate_no_placeholder vars template h
  · intro k
    exact renderTemplate_missing_value k

/-- Witness for C7 at concrete inputs: an untouched template with no
recognized placeholder, and a missing `name` value rendering empty. -/
theorem c7_renderTemplate_substitution_witness :
    renderTemplate (String.toList "plain text")
      [(String.toList "email", some (String.toList "x@y.z"))] =
      String.toList "plain text" ∧
    renderTemplate (placeholderFor (String.toList "name"))
      [(String.toList "name", none)] = [] :=
  ⟨c7_renderTemplate_substitution.1 (String.toList "plain text")
     [(String.toList "email", some (String.toList "x@y.z"))] (by decide),
   c7_renderTemplate_substitution.2.1 (String.toList "name")⟩

/-! ## `GitHubAPI` (the API client class in src/utils, lines 349-467)

Epoch times are integers in milliseconds; a single `now` parameter models
`Date.now()` (the code calls it twice within microseconds; the model uses
one instant).  Header values are strings that may be absent, and
`parseInt` may fail (JavaScript `NaN`), modelled by `Option`. -/

/-- Models JavaScript `parseInt(s)` (radix 10): skip leading whitespace,
optional sign, then the maximal run of leading digits; no digits gives
`NaN`, modelled as `none`. -/
def jsParseInt (s : List Char) : Option Int :=
  let t := s.dropWhile (fun c => c = ' ' ∨ c = '\t' ∨ c = '\n' ∨ c = '\r')
  let digitsValue : List Char → Option Int := fun u =>
    match u.takeWhile Char.isDigit with
    | [] => none
    | ds => some (ds.foldl (fun a c => a * 10 + ((c.toNat : Int) - 48)) 0)
  match t with
  | '-' :: rest => (digitsValue rest).map (fun n => -n)
  | '+' :: rest => digitsValue rest
  | rest => digitsValue rest

/-- `parseInt` applied to a possibly-absent header (`parseInt(undefined)`
is `NaN`). -/
def jsParseIntOpt (s : Option (List Char)) : Option Int :=
  match s with
  | none => none
  | some v => jsParseInt v

/-- The client's rate-limit bookkeeping (`this.rateLimitRemaining`,
`this.rateLimitReset`). -/
structure RateLimitState where
  rateLimitRemaining : Int
  rateLimitReset : Int
deriving DecidableEq, Repr

/-- The constructor state: `remaining = 5000`,
`reset = Date.now() + 3600000`. -/
def initRateLimitState (now : Int) : RateLimitState :=
  { rateLimitRemaining := 5000, rateLimitReset := now + 3600000 }

/-- The guard `this.rateLimitReset > Date.now() + 1000` from the
pre-request check. -/
def hasValidRateLimitInfo (st : RateLimitState) (now : Int) : Bool :=
  st.rateLimitReset > now + 1000

/-- The pre-request rate-limit check of `GitHubAPI.request`: returns the
sleep duration in milliseconds (`none` = no wait) and the state afterwards
(on a wait, `remaining` is optimistically reset to 5000).  The source's
`waitTime` is `max 0 (reset - now)`, inlined here. -/
def preRequestWait (st : RateLimitState) (now : Int) : Option Int × RateLimitState :=
  if st.rateLimitRemaining ≤ 10 ∧ hasValidRateLimitInfo st now = true then
    if 0 < max 0 (st.rateLimitReset - now) ∧ max 0 (st.rateLimitReset - now) < 3600000 then
      (some (max 0 (st.rateLimitReset - now) + 2000),
        { st with rateLimitRemaining := 5000 })
    else (none, st)
  else (none, st)

/-- The client sleeps exactly when remaining is at most 10 and the reset
time is more than 1000 ms in the future and less than one hour away. -/
theorem preRequestWait_some_iff (st : RateLimitState) (now : Int) :
    (∃ w, (preRequestWait st now).1 = some w) ↔
      (st.rateLimitRemaining ≤ 10 ∧ now + 1000 < st.rateLimitReset ∧
        st.rateLimitReset - now < 3600000) := by
  unfold preRequestWait hasValidRateLimitInfo
  constructor
  · rintro ⟨w, hw⟩
    by_cases hc : st.rateLimitRemaining ≤ 10 ∧
        decide (st.rateLimitReset > now + 1000) = true
    · rw [if_pos hc] at hw
      obtain ⟨hrem, hvalid⟩ := hc
      have hreset : now + 1000 < st.rateLimitReset := by simpa using hvalid
      by_cases hwt : 0 < max 0 (st.rateLimitReset - now) ∧
          max 0 (st.rateLimitReset - now) < 3600000
      · have hmax : max 0 (st.rateLimitReset - now) = st.rateLimitReset - now :=
          max_eq_right (by omega)
        rw [hmax] at hwt
        exact ⟨hrem, hreset, hwt.2⟩
      · rw [if_neg hwt] at hw
        simp at hw
    · rw [if_neg hc] at hw
      simp at hw
  · rintro ⟨hrem, hreset, hhour⟩
    have hvalid : decide (st.rateLimitReset > now + 1000) = true := by
      simpa using hreset
    rw [if_pos ⟨hrem, hvalid⟩]
    have hmax : max 0 (st.rateLimitReset - now) = st.rateLimitReset - now :=
      max_eq_right (by omega)
    rw [hmax, if_pos ⟨by omega, hhour⟩]
    exact ⟨_, rfl⟩

/-- When the client sleeps, it sleeps until the reset time plus the 2000 ms
buffer, and optimistically resets remaining to 5000. -/
theorem preRequestWait_some_eq (st : RateLimitState) (now w : Int)
    (hw : (preRequestWait st now).1 = some w) :
    w = (st.rateLimitReset - now) + 2000 ∧
      (preRequestWait st now).2.rateLimitRemaining = 5000 := by
  unfold preRequestWait at hw ⊢
  by_cases hc : st.rateLimitRemaining ≤ 10 ∧ hasValidRateLimitInfo st now = true
  · rw [if_pos hc] at hw ⊢
    have hreset : now + 1000 < st.rateLimitReset := by
      have := hc.2
      unfold hasValidRateLimitInfo at this
      simpa using this
    have hmax : max 0 (st.rateLimitReset - now) = st.rateLimitReset - now :=
      max_eq_right (by omega)
    rw [hmax] at hw ⊢
    by_cases hwt : 0 < st.rateLimitReset - now ∧ st.rateLimitReset - now < 3600000
    · rw [if_pos hwt] at hw ⊢
      simp only [Option.some.injEq] at hw
      exact ⟨hw.symm, rfl⟩
    · rw [if_neg hwt] at hw
      simp at hw
  · rw [if_neg hc] at hw
    simp at hw

/-- When the client does not sleep, the state is unchanged. -/
theorem preRequestWait_none_eq (st : RateLimitState) (now : Int)
    (h : (preRequestWait st now).1 = none) : (preRequestWait st now).2 = st := by
  unfold preRequestWait at h ⊢
  by_cases hc : st.rateLimitRemaining ≤ 10 ∧ hasValidRateLimitInfo st now = true
  · rw [if_pos hc] at h ⊢
    by_cases hwt : 0 < max 0 (st.rateLimitReset - now) ∧
        max 0 (st.rateLimitReset - now) < 3600000
    · rw [if_pos hwt] at h
      simp at h
    · rw [if_neg hwt]
  · rw [if_neg hc]

/-- The wait condition exactly as claim C4 words it: remaining at most 10
and the reset time strictly in the future and less than one hour away. -/
def shouldWaitSpec (st : RateLimitState) (now : Int) : Bool :=
  st.rateLimitRemaining ≤ 10 ∧ now < st.rateLimitReset ∧
    st.rateLimitReset - now < 3600000

/-- Counterexample to C4 as stated: with remaining = 5 and a reset 500 ms
in the future (a valid signal in the claim's sense: strictly in the future
and under one hour away), the claim mandates a wait, but the code's guard
`reset > now + 1000` fails and the request is issued without delay. -/
theorem c4_rate_limit_wait_counterexample :
    shouldWaitSpec { rateLimitRemaining := 5, rateLimitReset := 500 } 0 = true ∧
    (preRequestWait { rateLimitRemaining := 5, rateLimitReset := 500 } 0).1 = none := by
  constructor
  · decide
  · decide

/-- C4 (amended): the client blocks if and only if its tracked remaining
quota is at most 10 and the tracked reset time is more than 1000 ms in the
future and less than one hour away; when it blocks it sleeps until the
reset time plus a 2000 ms safety buffer and optimistically resets remaining
to 5000, and when the wait condition is not met (in particular in the
constructor state, whose remaining is 5000) the request is issued without
delay and the state is untouched.  With remaining = 5 and a reset 10 s
away, the next request waits exactly reset-minus-now plus the buffer. -/
theorem c4_rate_limit_wait :
    (∀ (st : RateLimitState) (now : Int),
      (∃ w, (preRequestWait st now).1 = some w) ↔
        (st.rateLimitRemaining ≤ 10 ∧ now + 1000 < st.rateLimitReset ∧
          st.rateLimitReset - now < 3600000)) ∧
    (∀ (st : RateLimitState) (now w : Int),
      (preRequestWait st now).1 = some w →
      w = (st.rateLimitReset - now) + 2000 ∧
        (preRequestWait st now).2.rateLimitRemaining = 5000) ∧
    (∀ (st : RateLimitState) (now : Int),
      (preRequestWait st now).1 = none → (preRequestWait st now).2 = st) ∧
    (∀ now : Int, (preRequestWait (initRateLimitState now) now).1 = none) ∧
    (∀ now : Int,
      (preRequestWait { rateLimitRemaining := 5, rateLimitReset := now + 10000 } now).1 =
        some ((now + 10000 - now) + 2000)) := by
  refine ⟨preRequestWait_some_iff, preRequestWait_some_eq, preRequestWait_none_eq, ?_, ?_⟩
  · intro now
    by_cases h : ∃ w, (preRequestWait (initRateLimitState now) now).1 = some w
    · obtain ⟨hrem, -, -⟩ := (preRequestWait_some_iff _ _).mp h
      have : ¬ ((5000 : Int) ≤ 10) := by norm_num
      exact absurd hrem this
    · cases hv : (preRequestWait (initRateLimitState now) now).1 with
      | none => rfl
      | some w => exact absurd ⟨w, hv⟩ h
  · intro now
    obtain ⟨w, hw⟩ := (preRequestWait_some_iff
      { rateLimitRemaining := 5, rateLimitReset := now + 10000 } now).mpr
      ⟨by norm_num, by show now + 1000 < now + 10000; omega,
       by show now + 10000 - now < 3600000; omega⟩
    obtain ⟨hweq, -⟩ := preRequestWait_some_eq _ _ _ hw
    rw [hw, hweq]

/-- Witness for C4 at a concrete state: remaining = 5 with reset 10 s away
sleeps for 12000 ms. -/
theorem c4_rate_limit_wait_witness :
    (preRequestWait { rateLimitRemaining := 5, rateLimitReset := 10000 } 0).1 =
      some ((0 + 10000 - 0) + 2000) := by
  have h := c4_rate_limit_wait.2.2.2.2 0
  simpa using h

/-! ## `GitHubAPI.request` error handling (lines 419-467)

The `catch` block of `request` first retries network errors, then inspects
`error.response`.  We model the decision as a function of the error
classification inputs and the retry budget, and the whole retry loop as a
recursion over a trace of attempt results. -/

/-- An HTTP error response as the `catch` block sees it: the status code
and the two rate-limit headers (absent headers are `none`). -/
structure HttpErrorResponse where
  status : Nat
  remainingHeader : Option (List Char)
  resetHeader : Option (List Char)
deriving DecidableEq, Repr

/-- The test `remaining === '0' || parseInt(remaining) <= 0`
(`parseInt(undefined)` is `NaN`, and `NaN <= 0` is false). -/
def remainingZeroIndicated (r : HttpErrorResponse) : Bool :=
  decide (r.remainingHeader = some (String.toList "0")) ||
    (match jsParseIntOpt r.remainingHeader with
     | some n => decide (n ≤ 0)
     | none => false)

/-- The code's rate-limit classification:
`error.response.status === 403 && (remaining === '0' || parseInt(remaining) <= 0)`. -/
def isRateLimitResponse (r : HttpErrorResponse) : Bool :=
  decide (r.status = 403) && remainingZeroIndicated r

/-- The classification exactly as claim C3 words it: status 403 or 429 and
the remaining-quota header equal to 0. -/
def claimRateLimitSpec (r : HttpErrorResponse) : Bool :=
  (decide (r.status = 403) || decide (r.status = 429)) &&
    decide (r.remainingHeader = some (String.toList "0"))

/-- `Math.max(0, resetTime - Date.now())` where
`resetTime = parseInt(headers['x-ratelimit-reset']) * 1000`; `none` models
the `NaN` produced by a missing or unparsable header. -/
def rateLimitWaitTime (r : HttpErrorResponse) (now : Int) : Option Int :=
  (jsParseIntOpt r.resetHeader).map (fun t => max 0 (t * 1000 - now))

/-- What the `catch` block decides to do with one failed attempt. -/
inductive ErrorOutcome where
  | retryNetwork (backoffMs : Nat)
  | retryRateLimit (sleepMs : Int)
  | throwRateLimit
  | throwApiError (status : Nat)
  | throwNetworkFinal
  | rethrowOriginal
deriving DecidableEq, Repr

/-- The decision logic of the `catch` block of `GitHubAPI.request`:
network errors with budget left retry with backoff
`Math.min(2000 * 2 ** (3 - retries), 10000)`; a response classified as
rate-limit retries after waiting until reset plus a 2000 ms buffer when
the budget allows and the wait (a number, not `NaN`) is under one hour,
else throws the fatal rate-limit error; any other response error throws
immediately; a network error with no budget throws after retries. -/
def handleRequestError (isNetworkError : Bool) (retries : Nat)
    (response : Option HttpErrorResponse) (now : Int) : ErrorOutcome :=
  if isNetworkError = true ∧ 0 < retries then
    .retryNetwork (min (2000 * 2 ^ (3 - retries)) 10000)
  else
    match response with
    | some r =>
      if isRateLimitResponse r = true then
        if 0 < retries ∧ (match rateLimitWaitTime r now with
                          | some w => decide (w < 3600000)
                          | none => false) = true then
          .retryRateLimit ((rateLimitWaitTime r now).getD 0 + 2000)
        else .throwRateLimit
      else .throwApiError r.status
    | none =>
      if isNetworkError = true then .throwNetworkFinal else .rethrowOriginal

/-- Whether an outcome belongs to the rate-limit handling path. -/
def isRateLimitOutcome : ErrorOutcome → Bool
  | .retryRateLimit _ => true
  | .throwRateLimit => true
  | _ => false

/-- One attempt of the retry loop as seen from outside: it either succeeds
or fails with a classification. -/
inductive AttemptResult where
  | success
  | failure (isNetworkError : Bool) (response : Option HttpErrorResponse)
deriving DecidableEq, Repr

/-- Observable summary of one `request` call driven by a trace of attempt
results: attempts consumed, sleeps performed (network backoffs and
rate-limit waits, in order), and the thrown error if any (`none` means the
request resolved). -/
structure RequestRun where
  attempts : Nat
  sleeps : List Int
  outcome : Option ErrorOutcome
deriving DecidableEq, Repr

/-- The recursive retry loop of `GitHubAPI.request`: each retry calls
`request` again with `retries - 1`.  An exhausted trace reports zero
attempts (the scenarios below always provide enough results). -/
def runRequest (now : Int) : Nat → List AttemptResult → RequestRun
  | _, [] => ⟨0, [], none⟩
  | _, .success :: _ => ⟨1, [], none⟩
  | retries, .failure net resp :: rest =>
    match handleRequestError net retries resp now with
    | .retryNetwork b =>
      let r := runRequest now (retries - 1) rest
      ⟨r.attempts + 1, (b : Int) :: r.sleeps, r.outcome⟩
    | .retryRateLimit w =>
      let r := runRequest now (retries - 1) rest
      ⟨r.attempts + 1, w :: r.sleeps, r.outcome⟩
    | e => ⟨1, [], some e⟩

/-- Counterexample to C3 as stated: a 429 response with remaining-quota
header `0` satisfies the claim's classification but the code classifies
only on status 403 — the error is thrown immediately as a plain API error
with no rate-limit wait or retry. -/
theorem c3_rate_limit_classification_counterexample :
    claimRateLimitSpec
      { status := 429, remainingHeader := some (String.toList "0"),
        resetHeader := some (String.toList "1700000000") } = true ∧
    isRateLimitResponse
      { status := 429, remainingHeader := some (String.toList "0"),
        resetHeader := some (String.toList "1700000000") } = false ∧
    handleRequestError false 3
      (some { status := 429, remainingHeader := some (String.toList "0"),
              resetHeader := some (String.toList "1700000000") }) 0 =
      .throwApiError 429 := by
  refine ⟨by decide, by decide, ?_⟩
  decide

/-- C3 (amended): the client classifies a failed response as a rate-limit
error exactly when the status is 403 (429 is not special-cased) and the
remaining-quota header is the literal string `0` or parses to a value at
most 0; for such an error it computes the wait until the reset time and
retries (sleeping wait-plus-buffer) exactly when the retry budget is
positive and the wait is a number under one hour, and otherwise throws the
fatal rate-limit error; a response not so classified is thrown as a plain
API error. -/
theorem c3_rate_limit_error_policy :
    (∀ r : HttpErrorResponse,
      isRateLimitResponse r = true ↔
        (r.status = 403 ∧ (r.remainingHeader = some (String.toList "0") ∨
          ∃ n, jsParseIntOpt r.remainingHeader = some n ∧ n ≤ 0))) ∧
    (∀ (retries : Nat) (now : Int) (r : HttpErrorResponse),
      isRateLimitOutcome (handleRequestError false retries (some r) now) = true ↔
        isRateLimitResponse r = true) ∧
    (∀ (retries : Nat) (now : Int) (r : HttpErrorResponse),
      isRateLimitResponse r = true →
      ((∃ w, handleRequestError false retries (some r) now = .retryRateLimit w) ↔
        (0 < retries ∧ ∃ t, jsParseIntOpt r.resetHeader = some t ∧
          max 0 (t * 1000 - now) < 3600000))) ∧
    (∀ (retries : Nat) (now : Int) (r : HttpErrorResponse) (w : Int),
      handleRequestError false retries (some r) now = .retryRateLimit w →
      ∃ t, jsParseIntOpt r.resetHeader = some t ∧
        w = max 0 (t * 1000 - now) + 2000) ∧
    (∀ (retries : Nat) (now : Int) (r : HttpErrorResponse),
      isRateLimitResponse r = false →
      handleRequestError false retries (some r) now = .throwApiError r.status) := by
  have hshape : ∀ (retries : Nat) (now : Int) (r : HttpErrorResponse),
      handleRequestError false retries (some r) now =
        if isRateLimitResponse r = true then
          (if 0 < retries ∧ (match rateLimitWaitTime r now with
                             | some w => decide (w < 3600000)
                             | none => false) = true then
            ErrorOutcome.retryRateLimit ((rateLimitWaitTime r now).getD 0 + 2000)
          else .throwRateLimit)
        else .throwApiError r.status := by
    intro retries now r
    unfold handleRequestError
    rw [if_neg (by simp)]
  have hcond : ∀ (retries : Nat) (now : Int) (r : HttpErrorResponse),
      (0 < retries ∧ (match rateLimitWaitTime r now with
                      | some w => decide (w < 3600000)
                      | none => false) = true) ↔
        (0 < retries ∧ ∃ t, jsParseIntOpt r.resetHeader = some t ∧
          max 0 (t * 1000 - now) < 3600000) := by
    intro retries now r
    unfold rateLimitWaitTime
    cases ht : jsParseIntOpt r.resetHeader with
    | none => simp [ht]
    | some t => simp [ht]
  refine ⟨?_, ?_, ?_, ?_, ?_⟩
  · intro r
    unfold isRateLimitResponse remainingZeroIndicated
    cases ho : jsParseIntOpt r.remainingHeader with
    | none => simp [ho]
    | some n => simp [ho]
  · intro retries now r
    rw [hshape]
    cases hrl : isRateLimitResponse r with
    | false => simp [isRateLimitOutcome]
    | true =>
      simp only [if_true]
      split
      · simp [isRateLimitOutcome]
      · simp [isRateLimitOutcome]
  · intro retries now r hrl
    rw [hshape, if_pos hrl]
    constructor
    · rintro ⟨w, hw⟩
      split at hw
      · rename_i hc
        exact (hcond retries now r).mp hc
      · exact absurd hw (by simp)
    · intro h
      rw [if_pos ((hcond retries now r).mpr h)]
      exact ⟨_, rfl⟩
  · intro retries now r w hw
    rw [hshape] at hw
    by_cases hrl : isRateLimitResponse r = true
    · rw [if_pos hrl] at hw
      split at hw
      · rename_i hc
        obtain ⟨-, t, ht, -⟩ := (hcond retries now r).mp hc
        refine ⟨t, ht, ?_⟩
        simp only [ErrorOutcome.retryRateLimit.injEq] at hw
        rw [← hw]
        simp [rateLimitWaitTime, ht]
      · exact absurd hw (by simp)
    · rw [if_neg hrl] at hw
      exact absurd hw (by simp)
  · intro retries now r hrl
    rw [hshape, if_neg (by simp [hrl])]

/-- Witness for C3 at concrete responses: a 403 with remaining `0` and a
parsable reset 5 s after epoch retries from a positive budget, and a 500
propagates as a plain API error with any budget left. -/
theorem c3_rate_limit_error_policy_witness :
    (∃ w, handleRequestError false 3
      (some { status := 403, remainingHeader := some (String.toList "0"),
              resetHeader := some (String.toList "5") }) 1000 =
        .retryRateLimit w) ∧
    handleRequestError false 3
      (some { status := 500, remainingHeader := some (String.toList "1"),
              resetHeader := none }) 0 = .throwApiError 500 :=
  ⟨(c3_rate_limit_error_policy.2.2.1 3 1000
      { status := 403, remainingHeader := some (String.toList "0"),
        resetHeader := some (String.toList "5") } (by decide)).mpr
      ⟨by decide, 5, by decide, by decide⟩,
   c3_rate_limit_error_policy.2.2.2.2 3 0
      { status := 500, remainingHeader := some (String.toList "1"),
        resetHeader := none } (by decide)⟩

/-- C5: transient network errors retry the same request up to the budget of
3 retry attempts with exponential backoff `min (2000 * 2 ^ (3 - retries))
10000` — 2000 ms, then 4000 ms, then 8000 ms from the default budget, each
under the 10 s cap — after which the network error is thrown; a success
within the budget stops retrying; and any non-rate-limit HTTP error
response propagates immediately with no retry and nothing further
consumed. -/
theorem c5_network_retry_policy :
    (∀ (resp : Option HttpErrorResponse) (now : Int) (retries : Nat),
      0 < retries →
      handleRequestError true retries resp now =
        .retryNetwork (min (2000 * 2 ^ (3 - retries)) 10000)) ∧
    (∀ (now : Int) (rest : List AttemptResult),
      runRequest now 3
        (.failure true none :: .failure true none :: .failure true none ::
          .failure true none :: rest) =
        { attempts := 4, sleeps := [2000, 4000, 8000],
          outcome := some .throwNetworkFinal }) ∧
    (∀ (now : Int) (rest : List AttemptResult),
      runRequest now 3 (.failure true none :: .success :: rest) =
        { attempts := 2, sleeps := [2000], outcome := none }) ∧
    (∀ (now : Int) (retries : Nat) (r : HttpErrorResponse)
        (rest : List AttemptResult),
      isRateLimitResponse r = false →
      runRequest now retries (.failure false (some r) :: rest) =
        { attempts := 1, sleeps := [], outcome := some (.throwApiError r.status) }) := by
  refine ⟨?_, ?_, ?_, ?_⟩
  · intro resp now retries hpos
    unfold handleRequestError
    rw [if_pos ⟨rfl, hpos⟩]
  · intro now rest
    simp [runRequest, handleRequestError]
  · intro now rest
    simp [runRequest, handleRequestError]
  · intro now retries r rest hrl
    by_cases hpos : 0 < retries
    · simp [runRequest, handleRequestError, hrl, hpos]
    · simp [runRequest, handleRequestError, hrl, hpos]

/-- Witness for C5 at concrete traces: the first backoff from the full
budget is 2000 ms, four straight network failures exhaust the budget with
backoffs 2000, 4000, 8000 ms, and a 404 propagates at once. -/
theorem c5_network_retry_policy_witness :
    handleRequestError true 3 none 0 = .retryNetwork 2000 ∧
    runRequest 0 3
      [.failure true none, .failure true none, .failure true none,
       .failure true none] =
      { attempts := 4, sleeps := [2000, 4000, 8000],
        outcome := some .throwNetworkFinal } ∧
    runRequest 0 3
      [.failure false (some { status := 404, remainingHeader := some (String.toList "42"),
                              resetHeader := none })] =
      { attempts := 1, sleeps := [], outcome := some (.throwApiError 404) } :=
  ⟨by have h := c5_network_retry_policy.1 none 0 3 (by norm_num)
      simpa using h,
   c5_network_retry_policy.2.1 0 [],
   c5_network_retry_policy.2.2.2 0 3
     { status := 404, remainingHeader := some (String.toList "42"),
       resetHeader := none } [] (by decide)⟩

/-! ## `EmailCollector.collectFromContributors` (src/utils/emailCollector.js lines 54-253)

The pass is a `while (hasMore && page <= 1000)` loop over pages.  We model
each iteration's observable input as a `PageResult` (the page's item count
and Link-header `hasNextPage` flag, or a thrown error classified as
rate-limit or not) and the loop state by the mutable locals. -/

/-- What one `getContributorsWithPagination` call produced. -/
inductive PageResult where
  | ok (count : Nat) (hasNext : Bool)
  | err (isRateLimit : Bool)
deriving DecidableEq, Repr

/-- The loop's mutable locals: `page`, `consecutiveEmptyPages`,
`consecutiveErrors`, `hasMore`. -/
structure ContribState where
  page : Nat
  consecutiveEmptyPages : Nat
  consecutiveErrors : Nat
  hasMore : Bool
deriving DecidableEq, Repr

/-- The locals as initialized before the loop. -/
def initContribState : ContribState :=
  { page := 1, consecutiveEmptyPages := 0, consecutiveErrors := 0, hasMore := true }

/-- One successful iteration (the `try` branch): fetching page ≥ 1000 hits
the hard ceiling check and breaks before processing (lines 79-84);
otherwise a zero-item page increments `consecutiveEmptyPages` and a
non-empty page resets it (lines 89-95), `consecutiveErrors` is reset
(line 174), the pass stops when `consecutiveEmptyPages` reached 3 (lines
184-186), and otherwise every branch of the continuation case split of
lines 187-205 advances to the next page — including a full page with
`hasNextPage` false; the `hasNext` flag only selects which log line runs,
so it does not appear on the right-hand sides. -/
def contribStepOk (s : ContribState) (count : Nat) (hasNext : Bool) : ContribState :=
  if 1000 ≤ s.page then { s with hasMore := false }
  else
    if count = 0 then
      if 3 ≤ s.consecutiveEmptyPages + 1 then
        { s with consecutiveEmptyPages := s.consecutiveEmptyPages + 1,
                 consecutiveErrors := 0, hasMore := false }
      else
        { s with consecutiveEmptyPages := s.consecutiveEmptyPages + 1,
                 consecutiveErrors := 0, page := s.page + 1 }
    else
      { s with consecutiveEmptyPages := 0, consecutiveErrors := 0,
               page := s.page + 1 }

/-- One failed non-rate-limit iteration (the `catch` branch, lines
214-234): `consecutiveErrors` is incremented; at 3 the pass stops, and
below 3 the same page is retried after a fixed 2 s delay (the page cursor
does not advance). -/
def contribStepErr (s : ContribState) : ContribState :=
  if 3 ≤ s.consecutiveErrors + 1 then
    { s with consecutiveErrors := s.consecutiveErrors + 1, hasMore := false }
  else
    { s with consecutiveErrors := s.consecutiveErrors + 1 }

/-- How a pass ended: normal loop exit, or the rethrown rate-limit error;
both record how many fetches were made. -/
inductive PassOutcome where
  | finished (pagesFetched : Nat)
  | rateLimitAbort (pagesFetched : Nat)
deriving DecidableEq, Repr

/-- Add one fetch to a pass outcome. -/
def bumpPass : PassOutcome → PassOutcome
  | .finished n => .finished (n + 1)
  | .rateLimitAbort n => .rateLimitAbort (n + 1)

/-- The contributors loop driven by a trace of page results (successive
fetch results, whether for a new page or a retry of the same page).  A
rate-limit error is rethrown at once (lines 219-222), ending the run;
an exhausted trace ends the run with no further fetch. -/
def contribRun : ContribState → List PageResult → PassOutcome
  | _, [] => .finished 0
  | s, r :: rest =>
    if s.hasMore = true ∧ s.page ≤ 1000 then
      match r with
      | .ok count hasNext => bumpPass (contribRun (contribStepOk s count hasNext) rest)
      | .err true => .rateLimitAbort 1
      | .err false => bumpPass (contribRun (contribStepErr s) rest)
    else .finished 0

/-- A stopped loop fetches nothing more. -/
theorem contribRun_stopped (s : ContribState) (rs : List PageResult)
    (h : s.hasMore = false) : contribRun s rs = .finished 0 := by
  cases rs with
  | nil => rfl
  | cons r rest => simp [contribRun, h]

/-- C1: the pass tracks `consecutiveEmptyPages`, incrementing it on every
zero-item page and resetting it on any non-empty page; a successful
iteration stops the pass only at the 1000-page ceiling or when
`consecutiveEmptyPages` reaches 3, a failed iteration stops it only when
`consecutiveErrors` reaches 3; a full page of exactly 100 items always
continues to the next page whatever the pagination-link flag says; and on
the page-size trace [100, 100, 0, 0, 0] with no pagination link the pass
makes exactly 5 fetches and never a 6th. -/
theorem c1_contributors_pagination :
    (∀ (s : ContribState) (count : Nat) (hasNext : Bool),
      s.page < 1000 →
      (contribStepOk s count hasNext).consecutiveEmptyPages =
        (if count = 0 then s.consecutiveEmptyPages + 1 else 0)) ∧
    (∀ (s : ContribState) (count : Nat) (hasNext : Bool),
      s.hasMore = true →
      (contribStepOk s count hasNext).hasMore = false →
      1000 ≤ s.page ∨ 3 ≤ (if count = 0 then s.consecutiveEmptyPages + 1 else 0)) ∧
    (∀ s : ContribState,
      s.hasMore = true →
      (contribStepErr s).hasMore = false → 3 ≤ s.consecutiveErrors + 1) ∧
    (∀ (s : ContribState) (hasNext : Bool),
      s.page < 1000 → s.hasMore = true →
      (contribStepOk s 100 hasNext).hasMore = true ∧
        (contribStepOk s 100 hasNext).page = s.page + 1) ∧
    (∀ r6 : PageResult,
      contribRun initContribState
        [.ok 100 false, .ok 100 false, .ok 0 false, .ok 0 false, .ok 0 false, r6] =
        .finished 5) := by
  refine ⟨?_, ?_, ?_, ?_, ?_⟩
  · intro s count hasNext hpage
    unfold contribStepOk
    rw [if_neg (by omega)]
    by_cases hc : count = 0
    · rw [if_pos hc, if_pos hc]
      split <;> rfl
    · rw [if_neg hc, if_neg hc]
  · intro s count hasNext hmore hstop
    unfold contribStepOk at hstop
    by_cases hpage : 1000 ≤ s.page
    · exact Or.inl hpage
    · rw [if_neg hpage] at hstop
      right
      by_cases hc : count = 0
      · rw [if_pos hc] at hstop
        rw [if_pos hc]
        by_cases hcep : 3 ≤ s.consecutiveEmptyPages + 1
        · exact hcep
        · rw [if_neg hcep] at hstop
          simp only at hstop
          rw [hmore] at hstop
          cases hstop
      · rw [if_neg hc] at hstop
        rw [if_neg hc]
        simp only at hstop
        rw [hmore] at hstop
        cases hstop
  · intro s hmore hstop
    unfold contribStepErr at hstop
    by_cases hcerr : 3 ≤ s.consecutiveErrors + 1
    · exact hcerr
    · rw [if_neg hcerr] at hstop
      simp only at hstop
      rw [hmore] at hstop
      cases hstop
  · intro s hasNext hpage hmore
    unfold contribStepOk
    rw [if_neg (by omega), if_neg (by omega)]
    exact ⟨hmore, rfl⟩
  · intro r6
    simp [contribRun, contribStepOk, initContribState, bumpPass]

/-- Witness for C1 at concrete states: a zero-item page increments the
empty-page counter, a full page with no pagination link continues to the
next page, and the [100, 100, 0, 0, 0] trace makes exactly 5 fetches. -/
theorem c1_contributors_pagination_witness :
    ((contribStepOk { page := 3, consecutiveEmptyPages := 1,
                      consecutiveErrors := 0, hasMore := true } 0 false
       ).consecutiveEmptyPages = (if (0 : Nat) = 0 then 1 + 1 else 0)) ∧
    ((contribStepOk { page := 7, consecutiveEmptyPages := 0,
                      consecutiveErrors := 0, hasMore := true } 100 false
       ).hasMore = true ∧
      (contribStepOk { page := 7, consecutiveEmptyPages := 0,
                       consecutiveErrors := 0, hasMore := true } 100 false
       ).page = 7 + 1) ∧
    contribRun initContribState
      [.ok 100 false, .ok 100 false, .ok 0 false, .ok 0 false, .ok 0 false,
       .ok 100 true] = .finished 5 :=
  ⟨c1_contributors_pagination.1 _ 0 false (by decide),
   c1_contributors_pagination.2.2.2.1 _ false (by decide) rfl,
   c1_contributors_pagination.2.2.2.2 (.ok 100 true)⟩

/-! ## `EmailCollector.collectFromRepository` (lines 414-528) and the merge map

The run builds one JavaScript `Map` keyed by the record's `email` field:
the contributors pass inserts with `set` (lines 434-436), the commits pass
inserts only when the key is absent (lines 457-461).  A JavaScript `Map`
is modelled as an association list in insertion order: `set` on a present
key updates the value in place, otherwise appends. -/

/-- One collected candidate record; `email` is normalized (lowercased,
trimmed) where the record is created, see `commitAuthorEmailData`. -/
structure EmailData where
  email : List Char
  name : List Char
  username : List Char
  repository : List Char
deriving DecidableEq, Repr

/-- Models `String.prototype.toLowerCase` (ASCII-faithful). -/
def jsToLowerCase (s : List Char) : List Char :=
  s.map Char.toLower

/-- Models `String.prototype.trim`: strip whitespace on both ends. -/
def jsTrim (s : List Char) : List Char :=
  (((s.dropWhile Char.isWhitespace).reverse).dropWhile Char.isWhitespace).reverse

/-- A commit-pass record (`collectFromCommits`, lines 293-298):
`email: author.email.toLowerCase().trim()`. -/
def commitAuthorEmailData (rawEmail name username repositoryName : List Char) :
    EmailData :=
  { email := jsTrim (jsToLowerCase rawEmail), name := name,
    username := username, repository := repositoryName }

/-- `Map.prototype.has`. -/
def mapHas (m : List (List Char × EmailData)) (k : List Char) : Bool :=
  m.any (fun p => decide (p.1 = k))

/-- `Map.prototype.set`: update the value of a present key in place (the
entry keeps its position), otherwise append a new entry. -/
def mapSet (m : List (List Char × EmailData)) (k : List Char) (v : EmailData) :
    List (List Char × EmailData) :=
  if mapHas m k then m.map (fun p => if p.1 = k then (k, v) else p)
  else m ++ [(k, v)]

/-- `Map.prototype.get` (as an `Option`). -/
def mapLookup (m : List (List Char × EmailData)) (k : List Char) : Option EmailData :=
  (m.find? (fun p => decide (p.1 = k))).map (fun p => p.2)

/-- The keys of the map, in insertion order. -/
def mapKeys (m : List (List Char × EmailData)) : List (List Char) :=
  m.map (fun p => p.1)

/-- The contributors pass inserts every record with
`emailMap.set(email.email, email)`. -/
def buildContribMap (contribEmails : List EmailData) :
    List (List Char × EmailData) :=
  contribEmails.foldl (fun m e => mapSet m e.email e) []

/-- The commits pass inserts a record only when its key is absent:
`if (!emailMap.has(email.email)) emailMap.set(email.email, email)`. -/
def addCommitEmails (m : List (List Char × EmailData))
    (commitEmails : List EmailData) : List (List Char × EmailData) :=
  commitEmails.foldl (fun m e => if mapHas m e.email then m else mapSet m e.email e) m

/-- How a harvesting pass ended when its caller observes it. -/
inductive PassError where
  | rateLimit
  | other
deriving DecidableEq, Repr

/-- Observable outcome of one `collectFromRepository` run (before the
filter/save stages, which consume the merged map). -/
structure RepoRunResult where
  contribPassRan : Bool
  commitsPassRan : Bool
  emailMap : List (List Char × EmailData)
  errorEvents : Nat
deriving DecidableEq, Repr

/-- `EmailCollector.collectFromRepository`, control flow of lines 427-476:
each pass runs inside its own `try`/`catch`; a caught error (including the
rate-limit error rethrown by the pass) only logs and emits an `error`
progress event, after which control falls through to the next pass.  The
pass bodies are abstracted by their results (`Except.error` = the pass
threw). -/
def collectFromRepository (includeContributors includeCommits : Bool)
    (contribResult commitResult : Except PassError (List EmailData)) :
    RepoRunResult :=
  let m0 : List (List Char × EmailData) := []
  let step1 :=
    if includeContributors then
      match contribResult with
      | .ok es => (buildContribMap es, 0)
      | .error _ => (m0, 1)
    else (m0, 0)
  let step2 :=
    if includeCommits then
      match commitResult with
      | .ok es => (addCommitEmails step1.1 es, 0)
      | .error _ => (step1.1, 1)
    else (step1.1, 0)
  { contribPassRan := includeContributors, commitsPassRan := includeCommits,
    emailMap := step2.1, errorEvents := step1.2 + step2.2 }

/-- Counterexample to C2 as stated: the contributors pass aborts with a
rate-limit error, yet the run still performs the commits pass and harvests
its records — the collection run is not aborted. -/
theorem c2_rate_limit_abort_counterexample :
    (collectFromRepository true true (.error .rateLimit)
      (.ok [{ email := String.toList "a@b.co", name := String.toList "A",
              username := String.toList "a", repository := String.toList "o/r" }])
      ).commitsPassRan = true ∧
    (collectFromRepository true true (.error .rateLimit)
      (.ok [{ email := String.toList "a@b.co", name := String.toList "A",
              username := String.toList "a", repository := String.toList "o/r" }])
      ).emailMap =
      [(String.toList "a@b.co",
        { email := String.toList "a@b.co", name := String.toList "A",
          username := String.toList "a", repository := String.toList "o/r" })] := by
  constructor
  · rfl
  · decide

/-- C2 (amended): a rate-limit error does propagate immediately out of the
contributors pass — the pass rethrows it on the very fetch that failed,
with no retry and nothing further consumed — but `collectFromRepository`
catches it, emits an error progress event, and still performs the commits
pass (when enabled), merging its harvest; the run is not aborted. -/
theorem c2_rate_limit_pass_abort_run_continues :
    (∀ (s : ContribState) (rs : List PageResult),
      s.hasMore = true → s.page ≤ 1000 →
      contribRun s (.err true :: rs) = .rateLimitAbort 1) ∧
    (∀ (pe : PassError) (es : List EmailData),
      (collectFromRepository true true (.error pe) (.ok es)).commitsPassRan = true ∧
      (collectFromRepository true true (.error pe) (.ok es)).emailMap =
        addCommitEmails [] es ∧
      (collectFromRepository true true (.error pe) (.ok es)).errorEvents = 1) := by
  constructor
  · intro s rs hmore hpage
    unfold contribRun
    rw [if_pos ⟨hmore, hpage⟩]
  · intro pe es
    exact ⟨rfl, rfl, rfl⟩

/-- Witness for C2: a rate-limit failure on the very first fetch aborts the
pass after that single fetch, and a run whose contributors pass threw still
runs the commits pass over one concrete record. -/
theorem c2_rate_limit_pass_abort_run_continues_witness :
    contribRun initContribState [.err true] = .rateLimitAbort 1 ∧
    (collectFromRepository true true (.error .rateLimit)
      (.ok [{ email := String.toList "c@d.io", name := [], username := [],
              repository := [] }])).commitsPassRan = true :=
  ⟨c2_rate_limit_pass_abort_run_continues.1 initContribState [] rfl (by decide),
   (c2_rate_limit_pass_abort_run_continues.2 .rateLimit
      [{ email := String.toList "c@d.io", name := [], username := [],
         repository := [] }]).1⟩

/-! ### Merge-map lemmas for C8 -/

/-- `mapHas` is membership among the keys. -/
theorem mapHas_iff (m : List (List Char × EmailData)) (k : List Char) :
    mapHas m k = true ↔ ∃ p ∈ m, p.1 = k := by
  simp only [mapHas, List.any_eq_true, decide_eq_true_eq]

/-- A key the map does not have belongs to no entry. -/
theorem mapHas_false_iff (m : List (List Char × EmailData)) (k : List Char) :
    mapHas m k = false ↔ ∀ p ∈ m, p.1 ≠ k := by
  rw [← Bool.not_eq_true, mapHas_iff]
  simp only [not_exists, not_and, ne_eq]

/-- `mapLookup` on an empty map. -/
theorem mapLookup_nil (k : List Char) :
    mapLookup ([] : List (List Char × EmailData)) k = none := rfl

/-- `mapLookup` unfolded one entry. -/
theorem mapLookup_cons (p : List Char × EmailData)
    (m : List (List Char × EmailData)) (k : List Char) :
    mapLookup (p :: m) k = if p.1 = k then some p.2 else mapLookup m k := by
  unfold mapLookup
  by_cases h : p.1 = k
  · rw [List.find?_cons_of_pos _ (by simp [h]), if_pos h]
    rfl
  · rw [List.find?_cons_of_neg _ (by simp [h]), if_neg h]

/-- Updating the entry of a different key does not change a lookup. -/
theorem mapLookup_keyfix (k k2 : List Char) (v : EmailData) (hne : k2 ≠ k) :
    ∀ m : List (List Char × EmailData),
    mapLookup (m.map (fun p => if p.1 = k then (k, v) else p)) k2 = mapLookup m k2 := by
  intro m
  induction m with
  | nil => rfl
  | cons p t ih =>
    simp only [List.map_cons]
    rw [mapLookup_cons, mapLookup_cons]
    by_cases hpk : p.1 = k
    · rw [if_pos hpk]
      rw [if_neg (by simpa using Ne.symm hne), if_neg (by rw [hpk]; exact Ne.symm hne)]
      exact ih
    · rw [if_neg hpk]
      by_cases hp2 : p.1 = k2
      · rw [if_pos hp2, if_pos hp2]
      · rw [if_neg hp2, if_neg hp2]
        exact ih

/-- Appending an entry for a different key does not change a lookup. -/
theorem mapLookup_append_single (k k2 : List Char) (v : EmailData) (hne : k2 ≠ k) :
    ∀ m : List (List Char × EmailData),
    mapLookup (m ++ [(k, v)]) k2 = mapLookup m k2 := by
  intro m
  induction m with
  | nil =>
    rw [List.nil_append, mapLookup_cons, if_neg (by simpa using Ne.symm hne)]
  | cons p t ih =>
    rw [List.cons_append, mapLookup_cons, mapLookup_cons]
    by_cases hp2 : p.1 = k2
    · rw [if_pos hp2, if_pos hp2]
    · rw [if_neg hp2, if_neg hp2]
      exact ih

/-- `set` for a different key does not change a lookup. -/
theorem mapLookup_mapSet_ne (m : List (List Char × EmailData))
    (k k2 : List Char) (v : EmailData) (hne : k2 ≠ k) :
    mapLookup (mapSet m k v) k2 = mapLookup m k2 := by
  unfold mapSet
  split
  · exact mapLookup_keyfix k k2 v hne m
  · exact mapLookup_append_single k k2 v hne m

/-- `set` on a present key keeps the key list unchanged. -/
theorem mapKeys_mapSet_of_has (m : List (List Char × EmailData))
    (k : List Char) (v : EmailData) (h : mapHas m k = true) :
    mapKeys (mapSet m k v) = mapKeys m := by
  unfold mapSet
  rw [if_pos h]
  unfold mapKeys
  rw [List.map_map]
  apply List.map_congr_left
  intro p _
  by_cases hpk : p.1 = k
  · simp [hpk]
  · simp [hpk]

/-- `set` on an absent key appends the key. -/
theorem mapKeys_mapSet_of_not_has (m : List (List Char × EmailData))
    (k : List Char) (v : EmailData) (h : mapHas m k = false) :
    mapKeys (mapSet m k v) = mapKeys m ++ [k] := by
  unfold mapSet
  rw [if_neg (by simp [h])]
  simp [mapKeys]

/-- `set` never removes a key. -/
theorem mapHas_mapSet_preserve (m : List (List Char × EmailData))
    (k k2 : List Char) (v : EmailData) (h : mapHas m k2 = true) :
    mapHas (mapSet m k v) k2 = true := by
  have hmem : k2 ∈ mapKeys m := by
    obtain ⟨p, hp, hpk⟩ := (mapHas_iff m k2).mp h
    exact List.mem_map.mpr ⟨p, hp, hpk⟩
  have hmem2 : k2 ∈ mapKeys (mapSet m k v) := by
    cases hh : mapHas m k with
    | true => rw [mapKeys_mapSet_of_has m k v hh]; exact hmem
    | false => rw [mapKeys_mapSet_of_not_has m k v hh]; exact List.mem_append_left _ hmem
  obtain ⟨p, hp, hpk⟩ := List.mem_map.mp hmem2
  exact (mapHas_iff _ k2).mpr ⟨p, hp, hpk⟩

/-- `set` preserves distinctness of the keys. -/
theorem mapKeys_nodup_mapSet (m : List (List Char × EmailData))
    (k : List Char) (v : EmailData) (h : (mapKeys m).Nodup) :
    (mapKeys (mapSet m k v)).Nodup := by
  cases hh : mapHas m k with
  | true => rw [mapKeys_mapSet_of_has m k v hh]; exact h
  | false =>
    rw [mapKeys_mapSet_of_not_has m k v hh]
    have hk : k ∉ mapKeys m := by
      intro hmem
      obtain ⟨p, hp, hpk⟩ := List.mem_map.mp hmem
      exact (mapHas_false_iff m k).mp hh p hp hpk
    refine List.Nodup.append h (List.nodup_singleton k) ?_
    intro x hx hxk
    rw [List.mem_singleton.mp hxk] at hx
    exact hk hx

/-- The contributors-pass fold preserves distinctness of the keys. -/
theorem mapKeys_nodup_contribFold (es : List EmailData) :
    ∀ m : List (List Char × EmailData), (mapKeys m).Nodup →
    (mapKeys (es.foldl (fun m e => mapSet m e.email e) m)).Nodup := by
  induction es with
  | nil => intro m h; exact h
  | cons e t ih =>
    intro m h
    simp only [List.foldl_cons]
    exact ih _ (mapKeys_nodup_mapSet m e.email e h)

/-- The commits-pass fold preserves distinctness of the keys. -/
theorem mapKeys_nodup_commitFold (es : List EmailData) :
    ∀ m : List (List Char × EmailData), (mapKeys m).Nodup →
    (mapKeys (addCommitEmails m es)).Nodup := by
  induction es with
  | nil => intro m h; exact h
  | cons e t ih =>
    intro m h
    unfold addCommitEmails at ih ⊢
    simp only [List.foldl_cons]
    by_cases he : mapHas m e.email = true
    · rw [if_pos he]
      exact ih m h
    · rw [if_neg he]
      exact ih _ (mapKeys_nodup_mapSet m e.email e h)

/-- The commits-pass fold never changes the binding of a key the map
already has: the contributor-pass record wins. -/
theorem mapLookup_commitFold_of_has (es : List EmailData) :
    ∀ (m : List (List Char × EmailData)) (k : List Char),
    mapHas m k = true →
    mapLookup (addCommitEmails m es) k = mapLookup m k := by
  induction es with
  | nil => intro m k _; rfl
  | cons e t ih =>
    intro m k h
    unfold addCommitEmails at ih ⊢
    simp only [List.foldl_cons]
    by_cases he : mapHas m e.email = true
    · rw [if_pos he]
      exact ih m k h
    · rw [if_neg he]
      have hne : k ≠ e.email := by
        intro hk
        rw [hk] at h
        exact he h
      rw [ih _ k (mapHas_mapSet_preserve m e.email k e h)]
      exact mapLookup_mapSet_ne m e.email k e hne

/-- Every entry of the merge has its value's email as its key. -/
theorem mapSet_coherent (m : List (List Char × EmailData)) (v : EmailData)
    (h : ∀ p ∈ m, p.1 = p.2.email) :
    ∀ p ∈ mapSet m v.email v, p.1 = p.2.email := by
  unfold mapSet
  split
  · intro q hq
    obtain ⟨p, hp, hfp⟩ := List.mem_map.mp hq
    by_cases hpk : p.1 = v.email
    · rw [if_pos hpk] at hfp
      rw [← hfp]
    · rw [if_neg hpk] at hfp
      rw [← hfp]
      exact h p hp
  · intro q hq
    rcases List.mem_append.mp hq with hq1 | hq2
    · exact h q hq1
    · rw [List.mem_singleton.mp hq2]

/-- Key coherence after the contributors-pass fold. -/
theorem contribFold_coherent (es : List EmailData) :
    ∀ m : List (List Char × EmailData), (∀ p ∈ m, p.1 = p.2.email) →
    ∀ p ∈ es.foldl (fun m e => mapSet m e.email e) m, p.1 = p.2.email := by
  induction es with
  | nil => intro m h; exact h
  | cons e t ih =>
    intro m h
    simp only [List.foldl_cons]
    exact ih _ (mapSet_coherent m e h)

/-- Key coherence after the commits-pass fold. -/
theorem commitFold_coherent (es : List EmailData) :
    ∀ m : List (List Char × EmailData), (∀ p ∈ m, p.1 = p.2.email) →
    ∀ p ∈ addCommitEmails m es, p.1 = p.2.email := by
  induction es with
  | nil => intro m h; exact h
  | cons e t ih =>
    intro m h
    unfold addCommitEmails at ih ⊢
    simp only [List.foldl_cons]
    by_cases he : mapHas m e.email = true
    · rw [if_pos he]
      exact ih m h
    · rw [if_neg he]
      exact ih _ (mapSet_coherent m e h)

/-- C8: merging the two passes keeps, for every address the contributors
pass produced, the contributor-pass binding — the commits-pass fold never
overwrites a present key; the merged map's keys are pairwise distinct; the
keys are exactly the records' email fields (so no two merged records share
an address); and a commit-pass record is keyed by the lowercased, trimmed
author address. -/
theorem c8_merge_first_seen_wins :
    (∀ (contribEmails commitEmails : List EmailData) (k : List Char),
      mapHas (buildContribMap contribEmails) k = true →
      mapLookup (addCommitEmails (buildContribMap contribEmails) commitEmails) k =
        mapLookup (buildContribMap contribEmails) k) ∧
    (∀ contribEmails commitEmails : List EmailData,
      (mapKeys (addCommitEmails (buildContribMap contribEmails) commitEmails)).Nodup) ∧
    (∀ contribEmails commitEmails : List EmailData,
      mapKeys (addCommitEmails (buildContribMap contribEmails) commitEmails) =
        (addCommitEmails (buildContribMap contribEmails) commitEmails).map
          (fun p => p.2.email)) ∧
    (∀ rawEmail name username repositoryName : List Char,
      (commitAuthorEmailData rawEmail name username repositoryName).email =
        jsTrim (jsToLowerCase rawEmail)) := by
  refine ⟨?_, ?_, ?_, fun _ _ _ _ => rfl⟩
  · intro contribEmails commitEmails k h
    exact mapLookup_commitFold_of_has commitEmails _ k h
  · intro contribEmails commitEmails
    exact mapKeys_nodup_commitFold commitEmails _
      (mapKeys_nodup_contribFold contribEmails [] (by simp [mapKeys]))
  · intro contribEmails commitEmails
    have hco : ∀ p ∈ addCommitEmails (buildContribMap contribEmails) commitEmails,
        p.1 = p.2.email :=
      commitFold_coherent commitEmails _
        (contribFold_coherent contribEmails [] (by simp))
    unfold mapKeys
    exact List.map_congr_left hco

/-- Witness for C8 at one address collected by both passes: the merged
binding is the contributor-pass one and the merged keys are distinct. -/
theorem c8_merge_first_seen_wins_witness :
    mapLookup
      (addCommitEmails
        (buildContribMap
          [{ email := String.toList "x@y.zz",
             name := String.toList "From Contributors",
             username := String.toList "xc",
             repository := String.toList "o/r" }])
        [{ email := String.toList "x@y.zz",
           name := String.toList "From Commits",
           username := [], repository := String.toList "o/r" }])
      (String.toList "x@y.zz") =
      mapLookup
        (buildContribMap
          [{ email := String.toList "x@y.zz",
             name := String.toList "From Contributors",
             username := String.toList "xc",
             repository := String.toList "o/r" }])
        (String.toList "x@y.zz") ∧
    (mapKeys
      (addCommitEmails
        (buildContribMap
          [{ email := String.toList "x@y.zz",
             name := String.toList "From Contributors",
             username := String.toList "xc",
             repository := String.toList "o/r" }])
        [{ email := String.toList "x@y.zz",
           name := String.toList "From Commits",
           username := [], repository := String.toList "o/r" }])).Nodup :=
  ⟨c8_merge_first_seen_wins.1
     [{ email := String.toList "x@y.zz",
        name := String.toList "From Contributors",
        username := String.toList "xc",
        repository := String.toList "o/r" }]
     [{ email := String.toList "x@y.zz",
        name := String.toList "From Commits",
        username := [], repository := String.toList "o/r" }]
     (String.toList "x@y.zz") (by decide),
   c8_merge_first_seen_wins.2.1
     [{ email := String.toList "x@y.zz",
        name := String.toList "From Contributors",
        username := String.toList "xc",
        repository := String.toList "o/r" }]
     [{ email := String.toList "x@y.zz",
        name := String.toList "From Commits",
        username := [], repository := String.toList "o/r" }]⟩

/-! ## `EmailSender.sendBulkEmails` (src/utils/emailSender.js lines 189-343)

The dispatcher verifies the SMTP connection once (a failure throws and
nothing is attempted), then walks the address list in slices of
`batchSize`, sending each batch concurrently with `Promise.all`, appending
each settled outcome to `results.sent` or `results.failed`, and sleeping
`delay` ms whenever another batch follows (`i + batchSize < emails.length`). -/

/-- Models the `options.batchSize || 5` and `options.delay || 1000`
defaults: an absent or zero (falsy) option falls back to the default. -/
def jsOrNum (v : Option Nat) (d : Nat) : Nat :=
  match v with
  | none => d
  | some 0 => d
  | some (n + 1) => n + 1

/-- An element of the `emails` argument: the code accepts plain string
addresses as well as record objects (`emailItem.email || emailItem`). -/
inductive EmailItem where
  | str (s : List Char)
  | obj (email : Option (List Char)) (name : Option (List Char))
        (username : Option (List Char)) (repository : Option (List Char))
deriving DecidableEq, Repr

/-- The `email` field of a per-address outcome: the resolved address, the
literal `unknown` (when `emailAddress` was a falsy string), or the original
non-string item itself (`email: emailAddress || 'unknown'` stores the
object when `emailAddress` is a truthy non-string). -/
inductive EmailField where
  | addr (s : List Char)
  | unknownLit
  | rawItem (it : EmailItem)
deriving DecidableEq, Repr

/-- One per-address outcome as pushed into `results.sent`/`results.failed`. -/
structure SendOutcome where
  email : EmailField
  success : Bool
deriving DecidableEq, Repr

/-- One send: `emailAddress = emailItem.email || emailItem`; a falsy or
non-string address yields a failed outcome without sending (lines 256-263);
otherwise the item is rendered through `variablesFor`/`renderTemplate` and
handed to `sendEmail`, which catches its own errors and reports success
through a flag — abstracted by the `sendOk` oracle. -/
def sendOutcome (sendOk : EmailItem → Bool) (it : EmailItem) : SendOutcome :=
  match it with
  | .str [] => { email := .unknownLit, success := false }
  | .str (c :: s) => { email := .addr (c :: s), success := sendOk (.str (c :: s)) }
  | .obj none n u r => { email := .rawItem (.obj none n u r), success := false }
  | .obj (some []) n u r =>
      { email := .rawItem (.obj (some []) n u r), success := false }
  | .obj (some (c :: s)) n u r =>
      { email := .addr (c :: s), success := sendOk (.obj (some (c :: s)) n u r) }

/-- The dispatch summary plus the run's ghost observables: `batches`
records the slices taken and `sleeps` the inter-batch delays performed. -/
structure BulkResults where
  sent : List SendOutcome
  failed : List SendOutcome
  total : Nat
  batches : List (List EmailItem)
  sleeps : List Nat
deriving DecidableEq, Repr

/-- The batch loop `for (let i = 0; i < emails.length; i += batchSize)`,
recast over the remaining suffix `rest = emails.slice(i)`: the guard
`i < emails.length` is `rest ≠ []`, the slice `emails.slice(i, i + batchSize)`
is `rest.take bs`, and the delay guard `i + batchSize < emails.length` is
`bs < rest.length`.  The fuel only bounds the recursion; the wrapper
supplies `emails.length`, which suffices whenever `bs ≥ 1` (the
`||`-defaulted batch size is never 0). -/
def sendBulkGo (sendOk : EmailItem → Bool) (bs delayMs : Nat) :
    Nat → List EmailItem → BulkResults → BulkResults
  | _, [], st => st
  | 0, _ :: _, st => st
  | fuel + 1, x :: xs, st =>
    sendBulkGo sendOk bs delayMs fuel ((x :: xs).drop bs)
      { sent := st.sent ++ (((x :: xs).take bs).map (sendOutcome sendOk)).filter
          (fun o => o.success),
        failed := st.failed ++ (((x :: xs).take bs).map (sendOutcome sendOk)).filter
          (fun o => !o.success),
        total := st.total,
        batches := st.batches ++ [(x :: xs).take bs],
        sleeps := st.sleeps ++ (if bs < (x :: xs).length then [delayMs] else []) }

/-- `EmailSender.sendBulkEmails`: verify first — a failure aborts the
dispatch with a thrown error and zero addresses attempted (lines 199-218) —
then run the batch loop with `results.total` fixed to the input length. -/
def sendBulkEmails (verifyOk : Bool) (emails : List EmailItem)
    (sendOk : EmailItem → Bool) (batchSizeOpt delayOpt : Option Nat) :
    Except (List Char) BulkResults :=
  if verifyOk then
    .ok (sendBulkGo sendOk (jsOrNum batchSizeOpt 5) (jsOrNum delayOpt 1000)
          emails.length emails
          { sent := [], failed := [], total := emails.length,
            batches := [], sleeps := [] })
  else .error (String.toList "Failed to verify SMTP connection")

/-- The `||`-defaulted numeric options are positive whenever the default is. -/
theorem jsOrNum_pos (v : Option Nat) (d : Nat) (h : 1 ≤ d) : 1 ≤ jsOrNum v d := by
  cases v with
  | none => simpa [jsOrNum] using h
  | some n =>
    cases n with
    | zero => simpa [jsOrNum] using h
    | succ k => simp [jsOrNum]

/-- The batch sizes produced by slicing a list of length `n` into slices
of `bs`: arithmetic shadow of the batch loop (the fuel is structural). -/
def natChunksGo (bs : Nat) : Nat → Nat → List Nat
  | 0, _ => []
  | fuel + 1, n => if n = 0 then [] else min bs n :: natChunksGo bs fuel (n - bs)

/-- Batch sizes for a list of length `n` and batch size `bs`. -/
def natChunks (n bs : Nat) : List Nat := natChunksGo bs n n

/-- The fuel of `natChunksGo` is irrelevant once it covers `n`. -/
theorem natChunksGo_irrel (bs : Nat) (hbs : 1 ≤ bs) :
    ∀ f1 f2 n : Nat, n ≤ f1 → n ≤ f2 →
    natChunksGo bs f1 n = natChunksGo bs f2 n := by
  intro f1
  induction f1 with
  | zero =>
    intro f2 n h1 _
    have hn : n = 0 := Nat.le_zero.mp h1
    subst hn
    cases f2 with
    | zero => rfl
    | succ g => simp [natChunksGo]
  | succ f ih =>
    intro f2 n h1 h2
    cases f2 with
    | zero =>
      have hn : n = 0 := Nat.le_zero.mp h2
      subst hn
      simp [natChunksGo]
    | succ g =>
      unfold natChunksGo
      by_cases hn : n = 0
      · rw [if_pos hn, if_pos hn]
      · rw [if_neg hn, if_neg hn]
        congr 1
        exact ih g (n - bs) (by omega) (by omega)

/-- Unfolding `natChunks` once for a nonempty length. -/
theorem natChunks_succ (bs n : Nat) (hbs : 1 ≤ bs) (hn : 1 ≤ n) :
    natChunks n bs = min bs n :: natChunks (n - bs) bs := by
  cases n with
  | zero => omega
  | succ k =>
    conv_lhs => rw [natChunks]
    conv_lhs => rw [natChunksGo]
    rw [if_neg (by omega)]
    congr 1
    show natChunksGo bs k (k + 1 - bs) = natChunksGo bs (k + 1 - bs) (k + 1 - bs)
    exact natChunksGo_irrel bs hbs k (k + 1 - bs) (k + 1 - bs) (by omega) (by omega)

/-- A nonempty length yields at least one batch. -/
theorem natChunks_ne_nil (bs n : Nat) (hbs : 1 ≤ bs) (hn : 1 ≤ n) :
    natChunks n bs ≠ [] := by
  rw [natChunks_succ bs n hbs hn]
  simp

/-- Structure of one whole batch-loop run: the sent and failed lists extend
the accumulator by the filtered outcomes of the remaining items in order,
the total is untouched, the recorded batches partition the remaining items
in order with the sizes given by `natChunks`, and one inter-batch sleep of
`delayMs` happens per batch except the last. -/
theorem sendBulkGo_spec (sendOk : EmailItem → Bool) (bs delayMs : Nat)
    (hbs : 1 ≤ bs) :
    ∀ (fuel : Nat) (rest : List EmailItem) (st : BulkResults),
      rest.length ≤ fuel →
      (sendBulkGo sendOk bs delayMs fuel rest st).sent =
          st.sent ++ (rest.map (sendOutcome sendOk)).filter (fun o => o.success) ∧
      (sendBulkGo sendOk bs delayMs fuel rest st).failed =
          st.failed ++ (rest.map (sendOutcome sendOk)).filter (fun o => !o.success) ∧
      (sendBulkGo sendOk bs delayMs fuel rest st).total = st.total ∧
      (sendBulkGo sendOk bs delayMs fuel rest st).batches.map List.length =
          st.batches.map List.length ++ natChunks rest.length bs ∧
      (sendBulkGo sendOk bs delayMs fuel rest st).batches.flatten =
          st.batches.flatten ++ rest ∧
      (sendBulkGo sendOk bs delayMs fuel rest st).sleeps =
          st.sleeps ++ List.replicate ((natChunks rest.length bs).length - 1) delayMs := by
  intro fuel
  induction fuel with
  | zero =>
    intro rest st hlen
    have hr : rest = [] := List.length_eq_zero.mp (Nat.le_zero.mp hlen)
    subst hr
    simp [sendBulkGo, natChunks, natChunksGo]
  | succ fuel ih =>
    intro rest st hlen
    cases rest with
    | nil => simp [sendBulkGo, natChunks, natChunksGo]
    | cons x xs =>
      have hdrop : ((x :: xs).drop bs).length ≤ fuel := by
        simp only [List.length_drop]
        simp only [List.length_cons] at hlen ⊢
        omega
      obtain ⟨h1, h2, h3, h4, h5, h6⟩ := ih ((x :: xs).drop bs)
        { sent := st.sent ++ (((x :: xs).take bs).map (sendOutcome sendOk)).filter
            (fun o => o.success),
          failed := st.failed ++ (((x :: xs).take bs).map (sendOutcome sendOk)).filter
            (fun o => !o.success),
          total := st.total,
          batches := st.batches ++ [(x :: xs).take bs],
          sleeps := st.sleeps ++ (if bs < (x :: xs).length then [delayMs] else []) }
        hdrop
      have hmapsplit : (x :: xs).map (sendOutcome sendOk) =
          ((x :: xs).take bs).map (sendOutcome sendOk) ++
            ((x :: xs).drop bs).map (sendOutcome sendOk) := by
        rw [← List.map_append, List.take_append_drop]
      have hstep : sendBulkGo sendOk bs delayMs (fuel + 1) (x :: xs) st =
          sendBulkGo sendOk bs delayMs fuel ((x :: xs).drop bs)
            { sent := st.sent ++ (((x :: xs).take bs).map (sendOutcome sendOk)).filter
                (fun o => o.success),
              failed := st.failed ++ (((x :: xs).take bs).map (sendOutcome sendOk)).filter
                (fun o => !o.success),
              total := st.total,
              batches := st.batches ++ [(x :: xs).take bs],
              sleeps := st.sleeps ++ (if bs < (x :: xs).length then [delayMs] else []) } :=
        rfl
      rw [hstep]
      refine ⟨?_, ?_, ?_, ?_, ?_, ?_⟩
      · rw [h1]
        dsimp only
        rw [hmapsplit, List.filter_append, ← List.append_assoc]
      · rw [h2]
        dsimp only
        rw [hmapsplit, List.filter_append, ← List.append_assoc]
      · rw [h3]
      · rw [h4]
        dsimp only
        rw [List.map_append, List.length_drop]
        rw [natChunks_succ bs (x :: xs).length hbs (by simp)]
        rw [List.append_assoc]
        congr 1
        simp [List.length_take]
      · rw [h5]
        dsimp only
        rw [List.flatten_append, List.append_assoc]
        congr 1
        simp [List.take_append_drop]
      · rw [h6]
        dsimp only
        rw [List.length_drop]
        rw [natChunks_succ bs (x :: xs).length hbs (by simp)]
        by_cases hlt : bs < (x :: xs).length
        · rw [if_pos hlt]
          have hL : 1 ≤ (natChunks ((x :: xs).length - bs) bs).length := by
            have := natChunks_ne_nil bs ((x :: xs).length - bs) hbs (by omega)
            cases hv : natChunks ((x :: xs).length - bs) bs with
            | nil => exact absurd hv this
            | cons a t => simp
          rw [List.append_assoc]
          congr 1
          have hlen2 : (min bs (x :: xs).length ::
              natChunks ((x :: xs).length - bs) bs).length - 1 =
              ((natChunks ((x :: xs).length - bs) bs).length - 1) + 1 := by
            simp only [List.length_cons]
            simp only [List.length_cons] at hL
            omega
          rw [hlen2, List.replicate_succ, List.singleton_append]
        · rw [if_neg hlt]
          have hz : (x :: xs).length - bs = 0 := by omega
          rw [hz]
          simp [natChunks, natChunksGo]

/-- C9: when verification succeeds, the dispatch summary partitions the
input — `total` is the input length, `sent` and `failed` are exactly the
successful and unsuccessful outcomes of the input items in order, their
lengths sum to the input length, and together they are a permutation of
the per-item outcomes, whatever the per-send oracle does (an individual
failure never removes an address or aborts later batches). -/
theorem c9_bulk_dispatch_partition :
    ∀ (emails : List EmailItem) (sendOk : EmailItem → Bool)
      (batchSizeOpt delayOpt : Option Nat) (res : BulkResults),
      sendBulkEmails true emails sendOk batchSizeOpt delayOpt = .ok res →
      res.total = emails.length ∧
      res.sent = (emails.map (sendOutcome sendOk)).filter (fun o => o.success) ∧
      res.failed = (emails.map (sendOutcome sendOk)).filter (fun o => !o.success) ∧
      res.sent.length + res.failed.length = emails.length ∧
      List.Perm (res.sent ++ res.failed) (emails.map (sendOutcome sendOk)) := by
  intro emails sendOk batchSizeOpt delayOpt res hres
  have hbs : 1 ≤ jsOrNum batchSizeOpt 5 := jsOrNum_pos _ _ (by norm_num)
  unfold sendBulkEmails at hres
  rw [if_pos rfl] at hres
  injection hres with hres
  subst hres
  obtain ⟨h1, h2, h3, -, -, -⟩ :=
    sendBulkGo_spec sendOk (jsOrNum batchSizeOpt 5) (jsOrNum delayOpt 1000) hbs
      emails.length emails
      { sent := [], failed := [], total := emails.length, batches := [], sleeps := [] }
      (le_refl _)
  refine ⟨?_, ?_, ?_, ?_, ?_⟩
  · rw [h3]
  · rw [h1]
    dsimp only
    rw [List.nil_append]
  · rw [h2]
    dsimp only
    rw [List.nil_append]
  · rw [h1, h2]
    dsimp only
    rw [List.nil_append, List.nil_append]
    have hlen2 := (List.filter_append_perm (fun o => o.success)
      (emails.map (sendOutcome sendOk))).length_eq
    rw [List.length_append, List.length_map] at hlen2
    exact hlen2
  · rw [h1, h2]
    dsimp only
    rw [List.nil_append, List.nil_append]
    exact List.filter_append_perm _ _

/-- Witness for C9 at three concrete items (a good address, an empty string
address, an object address) with an oracle that succeeds on strings only:
the summary covers all three. -/
theorem c9_bulk_dispatch_partition_witness :
    (sendBulkGo (fun it => match it with | .str _ => true | _ => false)
      (jsOrNum none 5) (jsOrNum none 1000)
      ([EmailItem.str (String.toList "a@b.c"), EmailItem.str [],
        EmailItem.obj (some (String.toList "d@e.f")) none none none]).length
      [EmailItem.str (String.toList "a@b.c"), EmailItem.str [],
        EmailItem.obj (some (String.toList "d@e.f")) none none none]
      { sent := [], failed := [],
        total := ([EmailItem.str (String.toList "a@b.c"), EmailItem.str [],
          EmailItem.obj (some (String.toList "d@e.f")) none none none]).length,
        batches := [], sleeps := [] }).sent.length +
    (sendBulkGo (fun it => match it with | .str _ => true | _ => false)
      (jsOrNum none 5) (jsOrNum none 1000)
      ([EmailItem.str (String.toList "a@b.c"), EmailItem.str [],
        EmailItem.obj (some (String.toList "d@e.f")) none none none]).length
      [EmailItem.str (String.toList "a@b.c"), EmailItem.str [],
        EmailItem.obj (some (String.toList "d@e.f")) none none none]
      { sent := [], failed := [],
        total := ([EmailItem.str (String.toList "a@b.c"), EmailItem.str [],
          EmailItem.obj (some (String.toList "d@e.f")) none none none]).length,
        batches := [], sleeps := [] }).failed.length =
    ([EmailItem.str (String.toList "a@b.c"), EmailItem.str [],
      EmailItem.obj (some (String.toList "d@e.f")) none none none]).length :=
  (c9_bulk_dispatch_partition
    [EmailItem.str (String.toList "a@b.c"), EmailItem.str [],
      EmailItem.obj (some (String.toList "d@e.f")) none none none]
    (fun it => match it with | .str _ => true | _ => false)
    none none _ rfl).2.2.2.1

/-- C6: with batch size 5, every 12-address list is cut into exactly the
slices of sizes [5, 5, 2] in list order (their concatenation is the input),
and the inter-batch sleep of the configured delay happens exactly twice —
not after the final batch; the defaulted options are batch size 5 and
delay 1000 ms. -/
theorem c6_dispatch_batching :
    ∀ (emails : List EmailItem) (sendOk : EmailItem → Bool)
      (delayOpt : Option Nat) (res : BulkResults),
      emails.length = 12 →
      sendBulkEmails true emails sendOk (some 5) delayOpt = .ok res →
      res.batches.map List.length = [5, 5, 2] ∧
      res.batches.flatten = emails ∧
      res.sleeps = List.replicate 2 (jsOrNum delayOpt 1000) ∧
      jsOrNum none 5 = 5 ∧ jsOrNum none 1000 = 1000 := by
  intro emails sendOk delayOpt res hlen hres
  unfold sendBulkEmails at hres
  rw [if_pos rfl] at hres
  injection hres with hres
  subst hres
  obtain ⟨-, -, -, h4, h5, h6⟩ :=
    sendBulkGo_spec sendOk (jsOrNum (some 5) 5) (jsOrNum delayOpt 1000)
      (by norm_num [jsOrNum]) emails.length emails
      { sent := [], failed := [], total := emails.length, batches := [], sleeps := [] }
      (le_refl _)
  refine ⟨?_, ?_, ?_, rfl, rfl⟩
  · rw [h4]
    dsimp only
    rw [hlen]
    decide
  · rw [h5]
    dsimp only
    try rw [List.nil_append]
    try rfl
  · rw [h6]
    dsimp only
    rw [hlen]
    try rw [List.nil_append]
    congr 1
    try decide

/-- Witness for C6 at a concrete 12-address list with batch size 5: the
recorded slice sizes are [5, 5, 2]. -/
theorem c6_dispatch_batching_witness :
    (sendBulkGo (fun _ => true) (jsOrNum (some 5) 5) (jsOrNum none 1000)
      (List.replicate 12 (EmailItem.str (String.toList "u@v.w"))).length
      (List.replicate 12 (EmailItem.str (String.toList "u@v.w")))
      { sent := [], failed := [],
        total := (List.replicate 12 (EmailItem.str (String.toList "u@v.w"))).length,
        batches := [], sleeps := [] }).batches.map List.length = [5, 5, 2] :=
  (c6_dispatch_batching (List.replicate 12 (EmailItem.str (String.toList "u@v.w")))
    (fun _ => true) none _ (by decide) rfl).1
